import Mathlib

/-!
Verification of the proxyfaqs API middleware core: a shallow embedding of the
rate limiter, client-IP resolution, input sanitizers, search fallback/cache and
chat route logic, together with proofs and refutations of the specified
properties.
-/

set_option maxRecDepth 10000

namespace Js

/-- Characters treated as whitespace by JavaScript string `trim` and the regex
class `\s` (ASCII whitespace, NBSP, BOM, and the Unicode space separators). -/
def jsWhitespaceChar (c : Char) : Bool :=
  c == ' ' || c == '\t' || c == '\n' || c == '\r' || c == '\x0b' || c == '\x0c' ||
  c == '\u00A0' || c == '\u1680' ||
  (decide ('\u2000' ≤ c) && decide (c ≤ '\u200A')) ||
  c == '\u2028' || c == '\u2029' || c == '\u202F' || c == '\u205F' ||
  c == '\u3000' || c == '\uFEFF'

/-- The regex word-character class `\w` = `[A-Za-z0-9_]`. -/
def isWordChar (c : Char) : Bool :=
  (decide ('a' ≤ c) && decide (c ≤ 'z')) || (decide ('A' ≤ c) && decide (c ≤ 'Z')) ||
  (decide ('0' ≤ c) && decide (c ≤ '9')) || c == '_'

/-- JavaScript `String.prototype.trim`: drop whitespace from both ends. -/
def trimChars (l : List Char) : List Char :=
  ((l.dropWhile jsWhitespaceChar).reverse.dropWhile jsWhitespaceChar).reverse

/-- String-level wrapper for `trimChars`. -/
def jsTrimStr (s : String) : String := String.mk (trimChars s.data)

/-- JavaScript `split` with a one-character separator (no limit):
`"".split(sep) = [""]`, empty pieces are kept. -/
def splitOnChar (sep : Char) (l : List Char) : List (List Char) :=
  l.foldr
    (fun c acc =>
      if c == sep then [] :: acc
      else
        match acc with
        | [] => [[c]]
        | g :: gs => (c :: g) :: gs)
    [[]]

/-- One-pass scan for `replaceRunsWith`: `prevBad` records whether the
previous character belonged to a replaced run, so each maximal run emits a
single space. -/
def replaceRunsWithAux (bad : Char → Bool) : Bool → List Char → List Char
  | _, [] => []
  | prevBad, c :: rest =>
    if bad c then
      (if prevBad then [] else [' ']) ++ replaceRunsWithAux bad true rest
    else c :: replaceRunsWithAux bad false rest

/-- Replace each maximal run of characters satisfying `bad` by a single space,
as the regexes `replace(/[...]+/g, " ")` do. -/
def replaceRunsWith (bad : Char → Bool) (l : List Char) : List Char :=
  replaceRunsWithAux bad false l

/-- JavaScript truthiness of a nullable string: `null`/`undefined` and `""`
are falsy, every other string is truthy. -/
def jsTruthyOpt (s : Option String) : Bool :=
  match s with
  | none => false
  | some v => v ≠ ""

/-- `v || d` for a nullable string `v`: the default is used when `v` is
`null`/`undefined` or empty. -/
def jsGetOr (v : Option String) (d : String) : String :=
  match v with
  | none => d
  | some s => if s = "" then d else s

/-- JavaScript numbers as produced by `parseInt`: `none` models `NaN`. -/
abbrev JSNum := Option Int

/-- `NaN` and `0` are falsy; every other number is truthy. -/
def jsNumTruthy (n : JSNum) : Bool :=
  match n with
  | none => false
  | some v => v ≠ 0

/-- `Math.min` on two numbers; `NaN` is absorbing. -/
def jsMin (a b : JSNum) : JSNum :=
  match a, b with
  | some x, some y => some (min x y)
  | _, _ => none

/-- Decimal digit test for `parseInt`. -/
def isDecDigit (c : Char) : Bool := decide ('0' ≤ c) && decide (c ≤ '9')

/-- Hex digit test for `parseInt` with a `0x` prefix. -/
def isHexDigit (c : Char) : Bool :=
  isDecDigit c || (decide ('a' ≤ c) && decide (c ≤ 'f')) ||
  (decide ('A' ≤ c) && decide (c ≤ 'F'))

/-- Numeric value of a digit character. -/
def digitVal (c : Char) : Nat :=
  if decide ('0' ≤ c) && decide (c ≤ '9') then c.toNat - '0'.toNat
  else if decide ('a' ≤ c) && decide (c ≤ 'f') then c.toNat - 'a'.toNat + 10
  else if decide ('A' ≤ c) && decide (c ≤ 'F') then c.toNat - 'A'.toNat + 10
  else 0

/-- Fold a digit list into a natural number in the given base. -/
def digitsToNat (base : Nat) (l : List Char) : Nat :=
  l.foldl (fun acc c => acc * base + digitVal c) 0

/-- JavaScript `parseInt(s)` with no radix argument: skip leading whitespace,
read an optional sign, honour a `0x`/`0X` hex prefix, then take the longest
digit prefix; with no digits the result is `NaN` (`none`). -/
def jsParseInt (s : String) : JSNum :=
  let l := s.data.dropWhile jsWhitespaceChar
  let (sign, rest) : Int × List Char :=
    match l with
    | '+' :: r => (1, r)
    | '-' :: r => (-1, r)
    | r => (1, r)
  match rest with
  | '0' :: 'x' :: r =>
    let ds := r.takeWhile isHexDigit
    if ds = [] then none else some (sign * (digitsToNat 16 ds : Int))
  | '0' :: 'X' :: r =>
    let ds := r.takeWhile isHexDigit
    if ds = [] then none else some (sign * (digitsToNat 16 ds : Int))
  | r =>
    let ds := r.takeWhile isDecDigit
    if ds = [] then none else some (sign * (digitsToNat 10 ds : Int))

/-- `Math.ceil(a / b)` for integers with `b > 0`, via floor division. -/
def ceilDivInt (a b : Int) : Int := -((-a).fdiv b)

/-- `Number.parseInt(s, 10)`: as `jsParseInt` but a fixed radix of 10, so a
`0x` prefix is not honoured (parsing stops at the `x`). -/
def jsParseInt10 (s : String) : JSNum :=
  let l := s.data.dropWhile jsWhitespaceChar
  let (sign, rest) : Int × List Char :=
    match l with
    | '+' :: r => (1, r)
    | '-' :: r => (-1, r)
    | r => (1, r)
  let ds := rest.takeWhile isDecDigit
  if ds = [] then none else some (sign * (digitsToNat 10 ds : Int))

/-- The request headers the identity resolvers inspect. A `none` models a
header that is absent (`headers.get` returns `null`). -/
structure RequestHeaders where
  cfConnectingIp : Option String
  xRealIp : Option String
  xForwardedFor : Option String
deriving DecidableEq

/-- First comma-separated entry of an `x-forwarded-for` value, trimmed. -/
def firstForwarded (w : String) : String :=
  String.mk (trimChars ((splitOnChar ',' w.data).headD []))

/-- Decidable equality for `Except`, used by the thrown-error models. -/
instance instDecidableEqExcept {ε α : Type} [DecidableEq ε] [DecidableEq α] :
    DecidableEq (Except ε α) := fun a b =>
  match a, b with
  | .ok x, .ok y =>
    if h : x = y then isTrue (congrArg Except.ok h)
    else isFalse (fun hh => h (Except.ok.inj hh))
  | .error x, .error y =>
    if h : x = y then isTrue (congrArg Except.error h)
    else isFalse (fun hh => h (Except.error.inj hh))
  | .ok _, .error _ => isFalse (fun hh => Except.noConfusion hh)
  | .error _, .ok _ => isFalse (fun hh => Except.noConfusion hh)

end Js

namespace Security

open Js

/-- Character class removed by `sanitizeInput`'s second replace:
`[\x00-\x08\x0B\x0C\x0E-\x1F\x7F]` (control characters except tab, newline
and carriage return). -/
def isStrippedControl (c : Char) : Bool :=
  decide (c ≤ '\x08') || c == '\x0b' || c == '\x0c' ||
  (decide ('\x0e' ≤ c) && decide (c ≤ '\x1f')) || c == '\x7f'

/-- `sanitizeInput` from the security utilities: remove null bytes, remove
control characters except newlines and tabs, then trim whitespace. -/
def sanitizeInput (input : String) : String :=
  String.mk (trimChars
    ((input.data.filter (fun c => !(c == '\x00'))).filter
      (fun c => !(isStrippedControl c))))

/-- `sanitizeQuery`: sanitize, then hard-truncate to 500 characters. -/
def sanitizeQuery (query : String) : String :=
  let sanitized := sanitizeInput query
  if sanitized.length > 500 then String.mk (sanitized.data.take 500)
  else sanitized

/-- Result type of `sanitizeMessage` (the source object always carries an
`error` string in the invalid case). -/
inductive SanitizeResult where
  | valid (sanitized : String)
  | invalid (error : String)
deriving DecidableEq

/-- Test a predicate on the string and every proper suffix of it, as a global
(unanchored) regex match does. -/
def existsSuffix (p : List Char → Bool) : List Char → Bool
  | [] => p []
  | c :: rest => p (c :: rest) || existsSuffix p rest

/-- Substring containment: `needle` occurs contiguously inside `hay`. -/
def containsSeq (needle hay : List Char) : Bool :=
  existsSuffix (fun l => needle.isPrefixOf l) hay

/-- Match of `/<script[^>]*>/` at the start of the list: the literal
`<script` followed somewhere later by a `>` (the first such `>` is reached
through non-`>` characters only). -/
def scriptTagAt (l : List Char) : Bool :=
  "<script".data.isPrefixOf l && (l.drop 7).contains '>'

/-- Match of `/on\w+\s*=/` at the start of the list. The classes `\w`, `\s`
and `=` are pairwise disjoint, so greedy matching is exact. -/
def onHandlerAt (l : List Char) : Bool :=
  match l with
  | 'o' :: 'n' :: rest =>
    let w := rest.takeWhile isWordChar
    !w.isEmpty &&
      (((rest.drop w.length).dropWhile jsWhitespaceChar).headD ' ' == '=')
  | _ => false

/-- The dangerous-pattern deny list of `sanitizeMessage`, all tested
case-insensitively (modelled by lowering the haystack; the patterns are
ASCII). -/
def containsDangerous (s : String) : Bool :=
  let low := s.data.map Char.toLower
  existsSuffix scriptTagAt low ||
  containsSeq "javascript:".data low ||
  existsSuffix onHandlerAt low ||
  containsSeq "<iframe".data low ||
  containsSeq "<embed".data low ||
  containsSeq "<object".data low

/-- `sanitizeMessage`: sanitize, reject empty, reject overlong (max 2000),
reject dangerous markup patterns, otherwise return the sanitized value. -/
def sanitizeMessage (message : String) : SanitizeResult :=
  let sanitized := sanitizeInput message
  if sanitized = "" then .invalid "Message cannot be empty"
  else if sanitized.length > 2000 then
    .invalid "Message too long (max 2000 characters)"
  else if containsDangerous sanitized then
    .invalid "Message contains invalid content"
  else .valid sanitized

/-- `isValidSessionId`: `/^[a-zA-Z0-9_-]{8,100}$/`. -/
def isValidSessionId (sessionId : String) : Bool :=
  sessionId.data.all (fun c =>
    (decide ('a' ≤ c) && decide (c ≤ 'z')) || (decide ('A' ≤ c) && decide (c ≤ 'Z')) ||
    (decide ('0' ≤ c) && decide (c ≤ '9')) || c == '_' || c == '-') &&
  decide (8 ≤ sessionId.length) && decide (sessionId.length ≤ 100)

/-- `sanitizeLimit`: default when absent or non-numeric, clamp to `[1, max]`. -/
def sanitizeLimit (limit : Option String) (max : Int) (defaultLimit : Int) : Int :=
  match limit with
  | none => defaultLimit
  | some s =>
    if s = "" then defaultLimit
    else
      match jsParseInt10 s with
      | none => defaultLimit
      | some parsed =>
        if parsed < 1 then 1
        else if parsed > max then max
        else parsed

end Security

namespace RateLimit

open Js

/-- One identifier's window entry in the shared rate-limit store. -/
structure RateLimitEntry where
  count : Nat
  resetAt : Nat
deriving DecidableEq

/-- Per-route rate-limit configuration. -/
structure RateLimitConfig where
  maxRequests : Nat
  windowMs : Nat
deriving DecidableEq

/-- The record `checkRateLimit` returns. -/
structure RateLimitResult where
  allowed : Bool
  remaining : Int
  resetAt : Nat
deriving DecidableEq

/-- The shared library's `checkRateLimit`, projected to the entry stored
under the given identifier (`store.get(identifier)` in, the entry written by
`store.set` out; entries under other identifiers are untouched by the
source). Mirrors: fresh window when absent or expired; otherwise increment
`count`, then reject when the incremented count exceeds `maxRequests`. -/
def checkRateLimit (now : Nat) (entry? : Option RateLimitEntry)
    (config : RateLimitConfig) : RateLimitResult × RateLimitEntry :=
  match entry? with
  | none =>
    let resetAt := now + config.windowMs
    (⟨true, (config.maxRequests : Int) - 1, resetAt⟩, ⟨1, resetAt⟩)
  | some entry =>
    if entry.resetAt < now then
      let resetAt := now + config.windowMs
      (⟨true, (config.maxRequests : Int) - 1, resetAt⟩, ⟨1, resetAt⟩)
    else
      let e : RateLimitEntry := ⟨entry.count + 1, entry.resetAt⟩
      if e.count > config.maxRequests then
        (⟨false, 0, entry.resetAt⟩, e)
      else
        (⟨true, (config.maxRequests : Int) - (e.count : Int), entry.resetAt⟩, e)

/-- Run a sequence of `checkRateLimit` calls (at the given timestamps) for a
fixed identifier, threading the stored entry through. -/
def runSeq (config : RateLimitConfig) :
    Option RateLimitEntry → List Nat → List RateLimitResult × Option RateLimitEntry
  | s, [] => ([], s)
  | s, t :: ts =>
    let r := checkRateLimit t s config
    let rest := runSeq config (some r.2) ts
    (r.1 :: rest.1, rest.2)

/-- The shared library's `getClientIp`: Cloudflare header, then the first
non-empty trimmed entry of `x-forwarded-for`, then `x-real-ip`, then the
`"local-dev"` sentinel. An absent header and an empty one are conflated:
both are falsy and never returned. -/
def getClientIp (h : RequestHeaders) : String :=
  let cfIp := h.cfConnectingIp.getD ""
  if cfIp ≠ "" then cfIp
  else
    let forwardedFor := h.xForwardedFor.getD ""
    let firstIp := firstForwarded forwardedFor
    if forwardedFor ≠ "" ∧ firstIp ≠ "" then firstIp
    else
      let realIp := h.xRealIp.getD ""
      if realIp ≠ "" then realIp else "local-dev"

/-- The per-route configurations of the `RATE_LIMITS` object. -/
structure RateLimits where
  chat : RateLimitConfig
  search : RateLimitConfig
  default : RateLimitConfig
deriving DecidableEq

/-- `RATE_LIMITS`: chat 20/min, search 60/min, default 30/min. -/
def RATE_LIMITS : RateLimits :=
  ⟨⟨20, 60 * 1000⟩, ⟨60, 60 * 1000⟩, ⟨30, 60 * 1000⟩⟩

/-- The 429 response built by `rateLimitResponse` (status, headers and JSON
body fields; the formatted ISO date of the `X-RateLimit-Reset` header is
elided). -/
structure RateLimited429 where
  status : Nat
  headers : List (String × String)
  error : String
  message : String
  retryAfter : Int
deriving DecidableEq

/-- `rateLimitResponse(resetAt)`: a 429 with `Retry-After` seconds and the
standard rate-limit headers. Note the `X-RateLimit-Limit` header is always
`RATE_LIMITS.chat.maxRequests`. -/
def rateLimitResponse (now resetAt : Nat) : RateLimited429 :=
  let retryAfter := ceilDivInt ((resetAt : Int) - (now : Int)) 1000
  { status := 429
    headers :=
      [("Content-Type", "application/json"),
       ("Retry-After", toString retryAfter),
       ("X-RateLimit-Limit", toString RATE_LIMITS.chat.maxRequests),
       ("X-RateLimit-Remaining", "0")]
    error := "Rate limit exceeded"
    message := "Too many requests. Please try again later."
    retryAfter := retryAfter }

end RateLimit

namespace Supabase

open Js

/-- The columns the search queries select from the `questions` table (the
full `Question` interface has further nullable metadata columns that no
claim touches). -/
structure Question where
  id : String
  slug : String
  question : String
  answer : String
  category : String
  view_count : Nat
deriving DecidableEq

/-- The error object of a failed `supabaseRest` call. -/
structure ApiError where
  message : String
  code : Option String
deriving DecidableEq

/-- Outcome of one `supabaseRest` call: `ok` carries `data` (nullable in the
source, hence the inner `Option`), `err` carries the error object. -/
inductive RestResult where
  | ok (data : Option (List Question))
  | err (e : ApiError)
deriving DecidableEq

/-- `normalizeSearchQuery` (supabase client, `MAX_TERMS = 8`): lowercase,
fold runs of `[^\w\s-]` to spaces, collapse whitespace, trim, split on
spaces, drop empty terms, keep the first 8, rejoin with single spaces. -/
def normalizeSearchQuery (input : String) : String :=
  String.mk (List.intercalate [' ']
    (((splitOnChar ' '
        (trimChars
          (replaceRunsWith jsWhitespaceChar
            (replaceRunsWith
              (fun c => !(isWordChar c || jsWhitespaceChar c || c == '-'))
              (input.data.map Char.toLower))))).filter
        (fun t => t ≠ [])).take 8))

/-- The `limit` handling of `supabaseRest` (URL construction): the query
parameter is set only when `options.limit` is truthy, so `NaN` and `0`
leave the upstream query without any limit. -/
def supabaseRestLimitParam (limit : JSNum) : Option Int :=
  if jsNumTruthy limit then limit else none

/-- What `searchQuestionsWithFallback` returns/throws, together with how
often each upstream strategy was invoked. -/
structure SearchOutcome where
  result : Except ApiError (List Question × Bool)
  primaryCalls : Nat
  fallbackCalls : Nat
deriving DecidableEq

/-- `searchQuestionsWithFallback`: empty normalized query short-circuits;
otherwise try the full-text primary; on error try the `ilike` fallback once;
a fallback error is thrown. The upstream outcomes are supplied as oracles
`primary`/`fb`; the `limit` is forwarded to `supabaseRest` (its URL effect
is `supabaseRestLimitParam`). -/
def searchQuestionsWithFallback (query : String) (limit : JSNum)
    (primary fb : RestResult) : SearchOutcome :=
  let _ := supabaseRestLimitParam limit
  let normalized := normalizeSearchQuery query
  if normalized = "" then ⟨.ok ([], false), 0, 0⟩
  else
    match primary with
    | .ok d => ⟨.ok (d.getD [], false), 1, 0⟩
    | .err _ =>
      match fb with
      | .ok d => ⟨.ok (d.getD [], true), 1, 1⟩
      | .err e => ⟨.error e, 1, 1⟩

end Supabase

namespace SearchApi

open Js Supabase

/-- Line 15 of the search route: `Math.min(parseInt(limit || "20"), 100)`. -/
def searchLimit (lp : Option String) : JSNum :=
  jsMin (jsParseInt (jsGetOr lp "20")) (some 100)

/-- The limit that actually reaches the upstream query URL for a given
`limit` query-parameter value: the route's computed limit filtered through
`supabaseRest`'s truthiness guard. -/
def appliedLimit (lp : Option String) : Option Int :=
  supabaseRestLimitParam (searchLimit lp)

/-- JSON body of a search route response. -/
structure SearchBody where
  results : List Question
  queryEcho : Option String
  fallback : Option Bool
  error : Option String
deriving DecidableEq

/-- A search route response plus the upstream call counts of the request. -/
structure SearchResponse where
  status : Nat
  body : SearchBody
  primaryCalls : Nat
  fallbackCalls : Nat
deriving DecidableEq

/-- The `GET` handler of `src/pages/api/search.ts`: read `q` and `limit`,
short-circuit empty/short queries, delegate to
`searchQuestionsWithFallback`, turn a thrown error into a 500 with an empty
result list. -/
def searchGET (q lp : Option String) (primary fb : RestResult) : SearchResponse :=
  let query := q.getD ""
  let limit := searchLimit lp
  if jsTrimStr query = "" ∨ query.length < 2 then
    ⟨200, ⟨[], some "", none, none⟩, 0, 0⟩
  else
    let out := searchQuestionsWithFallback query limit primary fb
    match out.result with
    | .ok (results, fb') =>
      ⟨200, ⟨results, some query, some fb', none⟩, out.primaryCalls, out.fallbackCalls⟩
    | .error _ =>
      ⟨500, ⟨[], none, none, some "Search failed"⟩, out.primaryCalls, out.fallbackCalls⟩

end SearchApi

namespace SearchRoute

open Js

/-- `RATE_LIMIT_WINDOW_MS` of the production search route. -/
def RATE_LIMIT_WINDOW_MS : Nat := 60000

/-- `RATE_LIMIT_MAX_REQUESTS` of the production search route. -/
def RATE_LIMIT_MAX_REQUESTS : Nat := 60

/-- The record the route-local `checkRateLimit` returns. -/
structure SearchRateResult where
  allowed : Bool
  remaining : Int
  resetIn : Int
deriving DecidableEq

/-- The route-local `checkRateLimit` of the production search route,
projected to the entry stored under the given IP. Unlike the shared
library's version it tests `count >= RATE_LIMIT_MAX_REQUESTS` before
incrementing, so a rejected call leaves the stored entry unchanged. -/
def checkRateLimit (now : Nat) (entry? : Option RateLimit.RateLimitEntry) :
    SearchRateResult × RateLimit.RateLimitEntry :=
  match entry? with
  | none =>
    (⟨true, (RATE_LIMIT_MAX_REQUESTS : Int) - 1, (RATE_LIMIT_WINDOW_MS : Int)⟩,
      ⟨1, now + RATE_LIMIT_WINDOW_MS⟩)
  | some entry =>
    if entry.resetAt < now then
      (⟨true, (RATE_LIMIT_MAX_REQUESTS : Int) - 1, (RATE_LIMIT_WINDOW_MS : Int)⟩,
        ⟨1, now + RATE_LIMIT_WINDOW_MS⟩)
    else if entry.count ≥ RATE_LIMIT_MAX_REQUESTS then
      (⟨false, 0, (entry.resetAt : Int) - (now : Int)⟩, entry)
    else
      let e : RateLimit.RateLimitEntry := ⟨entry.count + 1, entry.resetAt⟩
      (⟨true, (RATE_LIMIT_MAX_REQUESTS : Int) - (e.count : Int),
          (entry.resetAt : Int) - (now : Int)⟩, e)

/-- The route-local `getClientIP` of the production search route:
`cf-connecting-ip || x-real-ip || x-forwarded-for-first-entry || "unknown"`. -/
def getClientIP (h : RequestHeaders) : String :=
  let cf := h.cfConnectingIp.getD ""
  if cf ≠ "" then cf
  else
    let realIp := h.xRealIp.getD ""
    if realIp ≠ "" then realIp
    else
      match h.xForwardedFor with
      | none => "unknown"
      | some fwd =>
        let firstIp := firstForwarded fwd
        if firstIp ≠ "" then firstIp else "unknown"

/-- `CACHE_TTL_MS` of the search cache. -/
def CACHE_TTL_MS : Nat := 60000

/-- `CACHE_MAX_SIZE` of the search cache. -/
def CACHE_MAX_SIZE : Nat := 1000

/-- One entry of the search LRU-ish cache. -/
structure CacheEntry where
  timestamp : Nat
  body : String
  hits : Nat
deriving DecidableEq

/-- The cache as a JS `Map`: association list in insertion order. -/
abbrev Cache := List (String × CacheEntry)

/-- JS `Map.get`: the value stored under `k`, if any. -/
def mapGet : Cache → String → Option CacheEntry
  | [], _ => none
  | p :: rest, k => if p.1 == k then some p.2 else mapGet rest k

/-- JS `Map.set`: updating an existing key keeps its insertion position;
a new key is appended. -/
def mapSet (m : Cache) (k : String) (v : CacheEntry) : Cache :=
  if m.any (fun p => p.1 == k) then
    m.map (fun p => if p.1 == k then (k, v) else p)
  else m ++ [(k, v)]

/-- `pruneCache`: when the cache exceeds `CACHE_MAX_SIZE`, delete the oldest
20% of entries by timestamp (a stable sort models the stable JS `sort`);
`CACHE_MAX_SIZE / 5` is `Math.floor(CACHE_MAX_SIZE * 0.2)`. -/
def pruneCache (cache : Cache) : Cache :=
  if cache.length ≤ CACHE_MAX_SIZE then cache
  else
    let sorted :=
      List.insertionSort (fun a b : String × CacheEntry =>
        a.2.timestamp ≤ b.2.timestamp) cache
    let toRemove := sorted.take (CACHE_MAX_SIZE / 5)
    toRemove.foldl (fun c p => c.filter (fun q => !(q.1 == p.1))) cache

/-- Result of the cache-consulting segment of the route's `GET` handler. -/
structure ServeResult where
  body : String
  cacheHit : Bool
  upstreamCalled : Bool
  cache : Cache
deriving DecidableEq

/-- The cache segment of the production search route's `GET` handler (after
rate limiting and validation): a cached entry younger than `CACHE_TTL_MS`
is served with its hit counter bumped and no upstream call; otherwise the
upstream search runs (its rendered response body is the oracle
`upstreamBody`), the entry is rewritten and the cache pruned. -/
def serveSearchCached (cache : Cache) (now : Nat) (cacheKey : String)
    (upstreamBody : String) : ServeResult :=
  let cached := mapGet cache cacheKey
  match cached with
  | some c =>
    if (now : Int) - (c.timestamp : Int) < (CACHE_TTL_MS : Int) then
      { body := c.body
        cacheHit := true
        upstreamCalled := false
        cache := mapSet cache cacheKey ⟨c.timestamp, c.body, c.hits + 1⟩ }
    else
      { body := upstreamBody
        cacheHit := false
        upstreamCalled := true
        cache := pruneCache (mapSet cache cacheKey ⟨now, upstreamBody, 0⟩) }
  | none =>
    { body := upstreamBody
      cacheHit := false
      upstreamCalled := true
      cache := pruneCache (mapSet cache cacheKey ⟨now, upstreamBody, 0⟩) }

end SearchRoute

namespace ChatApi

open Js Security

/-- An upstream chat-completions HTTP outcome: status plus
`data.choices[0].message.content` (`none` when absent). -/
structure UpstreamResp where
  status : Nat
  content : Option String
deriving DecidableEq

/-- `Response.ok` of the fetch API: status in the 2xx range. -/
def respOk (r : UpstreamResp) : Bool :=
  decide (200 ≤ r.status) && decide (r.status ≤ 299)

/-- The graceful-degradation message returned when the upstream call is not
ok. -/
def gracefulMessage : String :=
  "I\x27m having trouble connecting right now. Please try again in a moment, or browse our FAQ pages for answers."

/-- The fallback message returned when no API key is configured. -/
def noKeyMessage : String :=
  "I\x27m your proxy assistant! For the best experience, please ensure the API is configured. In the meantime, you can browse our FAQ pages or compare providers."

/-- The apology substituted when the upstream 2xx body carries no content. -/
def emptyContentMessage : String :=
  "I apologize, but I could not generate a response."

/-- A chat route response: status, JSON `response`/`error` fields, which
provider was called, and how many upstream fetches were made. -/
structure ChatResponse where
  status : Nat
  response : Option String
  error : Option String
  provider : Option String
  upstreamCalls : Nat
deriving DecidableEq

/-- The `POST` handler of `src/pages/api/chat.ts` (rate-limit check result
supplied by the caller, telemetry and headers elided). Provider selection:
OpenRouter when its key is configured, else VectorEngine. The handler makes
at most one upstream fetch — `upstream n` is the provider's response to the
`n`-th fetch of the request, and only `upstream 0` is ever consulted; any
non-2xx status yields an immediate 200 with `gracefulMessage`. -/
def chatPOST (rl : RateLimit.RateLimitResult) (message : Option String)
    (sessionId : Option String) (openRouterKey vectorEngineKey : String)
    (upstream : Nat → UpstreamResp) : ChatResponse :=
  if !rl.allowed then ⟨429, none, some "Rate limit exceeded", none, 0⟩
  else
    match sanitizeMessage (message.getD "") with
    | .invalid err => ⟨400, none, some err, none, 0⟩
    | .valid _ =>
      if jsTruthyOpt sessionId && !isValidSessionId (sessionId.getD "") then
        ⟨400, none, some "Invalid session ID format", none, 0⟩
      else
        let useOpenRouter := openRouterKey != ""
        let useVectorEngine := !useOpenRouter && vectorEngineKey != ""
        if !useOpenRouter && !useVectorEngine then
          ⟨200, some noKeyMessage, none, none, 0⟩
        else
          let provider := if useOpenRouter then "openrouter" else "vectorengine"
          let r := upstream 0
          if !respOk r then
            ⟨200, some gracefulMessage, none, some provider, 1⟩
          else
            ⟨200, some (r.content.getD emptyContentMessage), none, some provider, 1⟩

end ChatApi

/-! ## Helper lemmas about trimming and sanitizing -/

namespace Js

theorem dropWhile_idem (p : Char → Bool) (l : List Char) :
    (l.dropWhile p).dropWhile p = l.dropWhile p := by
  induction l with
  | nil => rfl
  | cons a t ih =>
    cases hp : p a with
    | true => simpa [List.dropWhile_cons, hp] using ih
    | false => simp [List.dropWhile_cons, hp]

theorem dropWhile_eq_self_of_prefix {p : Char → Bool} {m m' : List Char}
    (h : m.dropWhile p = m) (hp : m' <+: m) : m'.dropWhile p = m' := by
  cases m' with
  | nil => rfl
  | cons a t =>
    obtain ⟨r, hr⟩ := hp
    subst hr
    have ha : ¬ p a = true := by
      intro hpa
      have h1 : ((a :: t) ++ r).dropWhile p = (t ++ r).dropWhile p := by
        simp [List.dropWhile_cons, hpa]
      have hsub : List.Sublist ((t ++ r).dropWhile p) (t ++ r) := List.dropWhile_sublist p
      have h2 := hsub.length_le
      rw [h] at h1
      have h3 : ((a :: t) ++ r).length = (t ++ r).length + 1 := by simp
      rw [h1] at h3
      omega
    simp [List.dropWhile_cons, ha]

theorem trimChars_prefix_left (l : List Char) :
    trimChars l <+: l.dropWhile jsWhitespaceChar := by
  unfold trimChars
  set m := l.dropWhile jsWhitespaceChar with hm
  have hs : m.reverse.dropWhile jsWhitespaceChar <:+ m.reverse :=
    List.dropWhile_suffix _
  have h2 : (m.reverse.dropWhile jsWhitespaceChar).reverse <+: m.reverse.reverse :=
    List.reverse_prefix.mpr hs
  simpa using h2

theorem trimChars_idem (l : List Char) : trimChars (trimChars l) = trimChars l := by
  set m := l.dropWhile jsWhitespaceChar with hm
  have hLm : m.dropWhile jsWhitespaceChar = m := by
    rw [hm]; exact dropWhile_idem _ _
  set t := trimChars l with ht
  have htm : t <+: m := trimChars_prefix_left l
  have hLt : t.dropWhile jsWhitespaceChar = t :=
    dropWhile_eq_self_of_prefix hLm htm
  have htrev : t.reverse = m.reverse.dropWhile jsWhitespaceChar := by
    rw [ht]; unfold trimChars; rw [← hm]; simp
  have hRt : t.reverse.dropWhile jsWhitespaceChar = t.reverse := by
    rw [htrev]; exact dropWhile_idem _ _
  show ((t.dropWhile jsWhitespaceChar).reverse.dropWhile jsWhitespaceChar).reverse = t
  rw [hLt, hRt, List.reverse_reverse]

theorem mem_trimChars {a : Char} {l : List Char} (h : a ∈ trimChars l) : a ∈ l := by
  unfold trimChars at h
  rw [List.mem_reverse] at h
  have hsub1 : List.Sublist
      ((l.dropWhile jsWhitespaceChar).reverse.dropWhile jsWhitespaceChar)
      (l.dropWhile jsWhitespaceChar).reverse := List.dropWhile_sublist jsWhitespaceChar
  have h1 := hsub1.subset h
  rw [List.mem_reverse] at h1
  have hsub2 : List.Sublist (l.dropWhile jsWhitespaceChar) l := List.dropWhile_sublist jsWhitespaceChar
  exact hsub2.subset h1

end Js

namespace Security

theorem sanitizeInput_idem (s : String) :
    sanitizeInput (sanitizeInput s) = sanitizeInput s := by
  unfold sanitizeInput
  apply congrArg String.mk
  set l2 := (s.data.filter (fun c => !(c == '\x00'))).filter
    (fun c => !(isStrippedControl c)) with hl2
  show Js.trimChars
      (((Js.trimChars l2).filter (fun c => !(c == '\x00'))).filter
        (fun c => !(isStrippedControl c))) = Js.trimChars l2
  have hf1 : (Js.trimChars l2).filter (fun c => !(c == '\x00')) = Js.trimChars l2 := by
    refine List.filter_eq_self.mpr (fun a ha => ?_)
    have h2 : a ∈ l2 := Js.mem_trimChars ha
    rw [hl2] at h2
    exact (List.mem_filter.mp (List.mem_filter.mp h2).1).2
  have hf2 : (Js.trimChars l2).filter (fun c => !(isStrippedControl c)) =
      Js.trimChars l2 := by
    refine List.filter_eq_self.mpr (fun a ha => ?_)
    have h2 : a ∈ l2 := Js.mem_trimChars ha
    rw [hl2] at h2
    exact (List.mem_filter.mp h2).2
  rw [hf1, hf2]
  exact Js.trimChars_idem l2

theorem sanitizeMessage_valid_idem (x v : String)
    (h : sanitizeMessage x = .valid v) : sanitizeMessage v = .valid v := by
  simp only [sanitizeMessage] at h ⊢
  split_ifs at h with h1 h2 h3
  · have hv : v = sanitizeInput x := (SanitizeResult.valid.inj h).symm
    subst hv
    rw [sanitizeInput_idem]
    rw [if_neg h1, if_neg h2, if_neg h3]

theorem sanitizeQuery_idem_of_short (x : String)
    (h : (sanitizeInput x).length ≤ 500) :
    sanitizeQuery (sanitizeQuery x) = sanitizeQuery x := by
  have h1 : sanitizeQuery x = sanitizeInput x := by
    simp only [sanitizeQuery]
    rw [if_neg (by omega)]
  rw [h1]
  simp only [sanitizeQuery]
  rw [sanitizeInput_idem]
  rw [if_neg (by omega)]

end Security

/-! ## Claim C7: sanitizer idempotence -/

/-- A 501-character input whose sanitized form gets truncated to a string
with trailing whitespace: 499 `a`s, a space, and a `b`. -/
def c7Input : String := String.mk (List.replicate 499 'a' ++ [' ', 'b'])

/-- C7 counterexample: `sanitizeQuery` is not idempotent. On `c7Input` the
sanitizer truncates to 500 characters, leaving a trailing space that a
second application trims away, so `sanitizeQuery (sanitizeQuery c7Input)`
differs from `sanitizeQuery c7Input`. -/
theorem c7_sanitizeQuery_not_idempotent :
    Security.sanitizeQuery (Security.sanitizeQuery c7Input) ≠
      Security.sanitizeQuery c7Input := by
  decide

/-- C7 (amended): `sanitizeMessage` is idempotent on valid inputs — if
`sanitizeMessage x` is valid with sanitized value `v` then `sanitizeMessage v`
is valid with the same value; and `sanitizeQuery` is idempotent on every
input whose sanitized form is at most 500 characters (no truncation).
Truncation can leave trailing whitespace, so full idempotence of
`sanitizeQuery` fails (see the counterexample). -/
theorem c7_sanitizer_idempotence_amended :
    (∀ x v : String, Security.sanitizeMessage x = .valid v →
        Security.sanitizeMessage v = .valid v) ∧
    (∀ x : String, (Security.sanitizeInput x).length ≤ 500 →
        Security.sanitizeQuery (Security.sanitizeQuery x) =
          Security.sanitizeQuery x) := by
  exact ⟨Security.sanitizeMessage_valid_idem, Security.sanitizeQuery_idem_of_short⟩

/-- Witness for C7 (amended), at the concrete inputs `"hello there"` and
`"proxy help"`. -/
theorem c7_sanitizer_idempotence_amended_witness :
    Security.sanitizeMessage "hello there" = .valid "hello there" ∧
    Security.sanitizeQuery (Security.sanitizeQuery "proxy help") =
      Security.sanitizeQuery "proxy help" :=
  ⟨c7_sanitizer_idempotence_amended.1 "hello there" "hello there" (by decide),
   c7_sanitizer_idempotence_amended.2 "proxy help" (by decide)⟩

/-! ## Claim C1: rate limiter window correctness -/

namespace RateLimit

theorem runSeq_append (config : RateLimitConfig) (s : Option RateLimitEntry)
    (l₁ l₂ : List Nat) :
    runSeq config s (l₁ ++ l₂) =
      ((runSeq config s l₁).1 ++ (runSeq config (runSeq config s l₁).2 l₂).1,
        (runSeq config (runSeq config s l₁).2 l₂).2) := by
  induction l₁ generalizing s with
  | nil => simp [runSeq]
  | cons t ts ih => simp [runSeq, ih]

theorem runSeq_within (config : RateLimitConfig) (R : Nat) (ts : List Nat)
    (h : ∀ t ∈ ts, t ≤ R) (c : Nat) :
    runSeq config (some ⟨c, R⟩) ts =
      ((List.range ts.length).map (fun i =>
          if config.maxRequests < c + i + 1 then ⟨false, 0, R⟩
          else ⟨true, (config.maxRequests : Int) - ((c + i + 1 : Nat) : Int), R⟩),
        some ⟨c + ts.length, R⟩) := by
  induction ts generalizing c with
  | nil => simp [runSeq]
  | cons t ts ih =>
    have ht : t ≤ R := h t (List.mem_cons_self t ts)
    have hrest : ∀ u ∈ ts, u ≤ R := fun u hu => h u (List.mem_cons_of_mem t hu)
    have hmaps :
        (List.range ts.length).map
            ((fun i =>
              if config.maxRequests < c + i + 1 then
                (⟨false, 0, R⟩ : RateLimitResult)
              else ⟨true, (config.maxRequests : Int) - ((c + i + 1 : Nat) : Int), R⟩) ∘
              Nat.succ) =
          (List.range ts.length).map (fun i =>
            if config.maxRequests < (c + 1) + i + 1 then ⟨false, 0, R⟩
            else ⟨true, (config.maxRequests : Int) - (((c + 1) + i + 1 : Nat) : Int), R⟩) := by
      refine List.map_congr_left (fun i _ => ?_)
      have e : c + Nat.succ i + 1 = (c + 1) + i + 1 := by omega
      simp only [Function.comp_apply, e]
    have hcount : c + 1 + ts.length = c + (t :: ts).length := by
      simp only [List.length_cons]; omega
    rcases Nat.lt_or_ge config.maxRequests (c + 1) with hm | hm
    · have hcall : checkRateLimit t (some ⟨c, R⟩) config =
          ((⟨false, 0, R⟩ : RateLimitResult), (⟨c + 1, R⟩ : RateLimitEntry)) := by
        simp only [checkRateLimit]
        rw [if_neg (by omega), if_pos (by omega)]
      simp only [runSeq, hcall, ih hrest (c + 1), hmaps]
      rw [List.length_cons, List.range_succ_eq_map, List.map_cons, List.map_map,
        hmaps]
      rw [if_pos (show config.maxRequests < c + 0 + 1 by omega)]
      rw [hcount]
      simp [List.length_cons]
    · have hcall : checkRateLimit t (some ⟨c, R⟩) config =
          ((⟨true, (config.maxRequests : Int) - ((c + 1 : Nat) : Int), R⟩ :
              RateLimitResult),
            (⟨c + 1, R⟩ : RateLimitEntry)) := by
        simp only [checkRateLimit]
        rw [if_neg (by omega), if_neg (by omega)]
      simp only [runSeq, hcall, ih hrest (c + 1), hmaps]
      rw [List.length_cons, List.range_succ_eq_map, List.map_cons, List.map_map,
        hmaps]
      rw [if_neg (show ¬ config.maxRequests < c + 0 + 1 by omega)]
      rw [hcount]
      simp [List.length_cons]

end RateLimit

/-- C1: rate limiter window correctness for the shared `checkRateLimit`. For
`maxRequests = N` and window `W`, starting from an empty store: the first
call (at `t₀`) and the following `N - 1` calls within the window are allowed
with `remaining` strictly decreasing from `N - 1` down to `0`; the
`(N+1)`-th call within the window is rejected with `remaining = 0` and the
unchanged `resetAt`; and a call strictly after the window end starts a fresh
window (stored count restarted at 1, new `resetAt = t' + W`). -/
theorem c1_rate_limiter_window (N W t₀ t' : Nat) (ts : List Nat)
    (hN : 0 < N) (hlen : ts.length = N)
    (hin : ∀ t ∈ ts, t ≤ t₀ + W) (hafter : t₀ + W < t') :
    RateLimit.runSeq ⟨N, W⟩ none (t₀ :: ts ++ [t']) =
      ((List.range N).map (fun (j : Nat) =>
          ⟨true, (N : Int) - (j : Int) - 1, t₀ + W⟩) ++
        [⟨false, 0, t₀ + W⟩, ⟨true, (N : Int) - 1, t' + W⟩],
       some ⟨1, t' + W⟩) := by
  have hfirst : RateLimit.checkRateLimit t₀ none ⟨N, W⟩ =
      (⟨true, (N : Int) - 1, t₀ + W⟩, ⟨1, t₀ + W⟩) := rfl
  have hlast : RateLimit.checkRateLimit t' (some ⟨1 + N, t₀ + W⟩) ⟨N, W⟩ =
      (⟨true, (N : Int) - 1, t' + W⟩, ⟨1, t' + W⟩) := by
    simp only [RateLimit.checkRateLimit]
    rw [if_pos hafter]
  have hwithin : RateLimit.runSeq ⟨N, W⟩ (some ⟨1, t₀ + W⟩) ts =
      ((List.range ts.length).map (fun (i : Nat) =>
          if N < 1 + i + 1 then ⟨false, 0, t₀ + W⟩
          else ⟨true, (N : Int) - ((1 + i + 1 : Nat) : Int), t₀ + W⟩),
        some ⟨1 + ts.length, t₀ + W⟩) :=
    RateLimit.runSeq_within ⟨N, W⟩ (t₀ + W) ts hin 1
  have hsplit : N = (N - 1) + 1 := by omega
  have hmid : (List.range N).map (fun (i : Nat) =>
        if N < 1 + i + 1 then (⟨false, 0, t₀ + W⟩ : RateLimit.RateLimitResult)
        else ⟨true, (N : Int) - ((1 + i + 1 : Nat) : Int), t₀ + W⟩) =
      (List.range (N - 1)).map (fun (i : Nat) =>
        ⟨true, (N : Int) - (i : Int) - 2, t₀ + W⟩) ++ [⟨false, 0, t₀ + W⟩] := by
    conv_lhs => rw [hsplit, List.range_succ]
    rw [List.map_append]
    congr 1
    · refine List.map_congr_left (fun i hi => ?_)
      rw [List.mem_range] at hi
      rw [if_neg (by omega)]
      congr 1
      omega
    · simp only [List.map_cons, List.map_nil]
      rw [if_pos (by omega)]
  have htarget : (List.range N).map (fun (j : Nat) =>
        (⟨true, (N : Int) - (j : Int) - 1, t₀ + W⟩ : RateLimit.RateLimitResult)) =
      ⟨true, (N : Int) - 1, t₀ + W⟩ ::
        (List.range (N - 1)).map (fun (i : Nat) =>
          ⟨true, (N : Int) - (i : Int) - 2, t₀ + W⟩) := by
    conv_lhs => rw [hsplit, List.range_succ_eq_map]
    rw [List.map_cons, List.map_map]
    congr 1
    · congr 1
      omega
    · refine List.map_congr_left (fun i hi => ?_)
      simp only [Function.comp_apply]
      congr 1
      omega
  rw [List.cons_append]
  simp only [RateLimit.runSeq, hfirst]
  rw [RateLimit.runSeq_append, hwithin, hlen]
  simp only [RateLimit.runSeq, hlast]
  rw [hmid, htarget]
  simp [List.append_assoc]

/-- Witness for C1 at `N = 2`, `W = 10`, calls at 0, 3, 5 (window), 11
(after the window). -/
theorem c1_rate_limiter_window_witness :
    (0 : Nat) < 2 ∧ [(3 : Nat), 5].length = 2 ∧ (∀ t ∈ [(3 : Nat), 5], t ≤ 0 + 10) ∧
      0 + 10 < 11 ∧
      RateLimit.runSeq ⟨2, 10⟩ none (0 :: [3, 5] ++ [11]) =
        ((List.range 2).map (fun (j : Nat) =>
            ⟨true, (2 : Int) - (j : Int) - 1, 0 + 10⟩) ++
          [⟨false, 0, 0 + 10⟩, ⟨true, (2 : Int) - 1, 11 + 10⟩],
         some ⟨1, 11 + 10⟩) :=
  ⟨by decide, by decide, by decide, by decide,
   c1_rate_limiter_window 2 10 0 11 [3, 5] (by decide) (by decide) (by decide)
     (by decide)⟩

/-! ## Claim C2: rejection without incrementing the stored count -/

/-- C2 counterexample: the shared library's `checkRateLimit` increments the
stored count even on a rejected call. With `maxRequests = 2` and an entry
at `count = 2` inside its window, the call is rejected with `remaining = 0`
and the existing `resetAt`, but the stored count becomes 3, not 2. -/
theorem c2_reject_increments_counterexample :
    (RateLimit.checkRateLimit 3 (some ⟨2, 5⟩) ⟨2, 60000⟩).1 =
        ⟨false, 0, 5⟩ ∧
      (RateLimit.checkRateLimit 3 (some ⟨2, 5⟩) ⟨2, 60000⟩).2.count ≠ 2 := by
  decide

/-- C2 (amended): on a call inside the current window with
`count ≥ maxRequests`, both implementations return `allowed = false`,
`remaining = 0` and the existing window's end — but the shared library's
`checkRateLimit` stores `count + 1` (the count is incremented even when
rejecting), while the search route's local `checkRateLimit` leaves the
stored entry unchanged. -/
theorem c2_reject_no_increment_amended (now : Nat)
    (entry : RateLimit.RateLimitEntry) (cfg : RateLimit.RateLimitConfig)
    (hwin : now ≤ entry.resetAt) :
    (cfg.maxRequests ≤ entry.count →
      RateLimit.checkRateLimit now (some entry) cfg =
        (⟨false, 0, entry.resetAt⟩, ⟨entry.count + 1, entry.resetAt⟩)) ∧
    (SearchRoute.RATE_LIMIT_MAX_REQUESTS ≤ entry.count →
      SearchRoute.checkRateLimit now (some entry) =
        (⟨false, 0, (entry.resetAt : Int) - (now : Int)⟩, entry)) := by
  constructor
  · intro hcount
    simp only [RateLimit.checkRateLimit]
    rw [if_neg (by omega), if_pos (by omega)]
  · intro hcount
    simp only [SearchRoute.checkRateLimit]
    rw [if_neg (by omega), if_pos (by omega)]

/-- Witness for C2 (amended) at `now = 3`, entry `(60, 5)`, config
`(2, 60000)`. -/
theorem c2_reject_no_increment_amended_witness :
    (3 : Nat) ≤ 5 ∧
      ((2 : Nat) ≤ 60 →
        RateLimit.checkRateLimit 3 (some ⟨60, 5⟩) ⟨2, 60000⟩ =
          (⟨false, 0, 5⟩, ⟨61, 5⟩)) ∧
      (SearchRoute.RATE_LIMIT_MAX_REQUESTS ≤ 60 →
        SearchRoute.checkRateLimit 3 (some ⟨60, 5⟩) =
          (⟨false, 0, (5 : Int) - (3 : Int)⟩, ⟨60, 5⟩)) :=
  ⟨by decide, c2_reject_no_increment_amended 3 ⟨60, 5⟩ ⟨2, 60000⟩ (by decide)⟩

/-! ## Claim C6: client identifier resolution priority -/

/-- C6 counterexample: the shared library's `getClientIp` checks
`x-forwarded-for` before `x-real-ip`. With both headers present and
non-empty, it returns the first forwarded entry, not the `x-real-ip`
value the claim requires. -/
theorem c6_ip_priority_counterexample :
    RateLimit.getClientIp ⟨none, some "1.1.1.1", some "2.2.2.2"⟩ = "2.2.2.2" ∧
      ("2.2.2.2" : String) ≠ "1.1.1.1" := by
  decide

/-- C6 (amended): the search route's local `getClientIP` follows the
claimed priority (Cloudflare header, then `x-real-ip`, then the first
trimmed `x-forwarded-for` entry, sentinel `"unknown"`) — in particular
`x-real-ip` wins when both proxy headers are non-empty. The shared
library's `getClientIp` instead prefers the first trimmed
`x-forwarded-for` entry over `x-real-ip`, with sentinel `"local-dev"`.
Both always return a string (they are total functions). -/
theorem c6_ip_priority_amended (h : Js.RequestHeaders) (r w : String)
    (hcf : Js.jsTruthyOpt h.cfConnectingIp = false)
    (hr : h.xRealIp = some r) (hrne : r ≠ "")
    (hw : h.xForwardedFor = some w) (hfne : Js.firstForwarded w ≠ "") :
    SearchRoute.getClientIP h = r ∧
    RateLimit.getClientIp h = Js.firstForwarded w ∧
    SearchRoute.getClientIP ⟨none, none, none⟩ = "unknown" ∧
    RateLimit.getClientIp ⟨none, none, none⟩ = "local-dev" := by
  obtain ⟨cf?, realIp?, fwd?⟩ := h
  simp only at hr hw
  subst hr
  subst hw
  have hwne : w ≠ "" := by
    intro he
    subst he
    exact hfne rfl
  have hcfe : cf?.getD "" = "" := by
    cases cf? with
    | none => rfl
    | some v =>
      simp only [Js.jsTruthyOpt, ne_eq, decide_not, Bool.not_eq_false,
        decide_eq_true_eq] at hcf
      simpa using hcf
  refine ⟨?_, ?_, by decide, by decide⟩
  · simp only [SearchRoute.getClientIP, hcfe]
    rw [if_neg (by simp)]
    simp only [Option.getD_some]
    rw [if_pos hrne]
  · simp only [RateLimit.getClientIp, hcfe]
    rw [if_neg (by simp)]
    simp only [Option.getD_some]
    rw [if_pos ⟨hwne, hfne⟩]

/-- Witness for C6 (amended) with `x-real-ip = 1.1.1.1` and
`x-forwarded-for = 2.2.2.2`. -/
theorem c6_ip_priority_amended_witness :
    Js.jsTruthyOpt (none : Option String) = false ∧
    Js.firstForwarded "2.2.2.2" ≠ "" ∧
    (SearchRoute.getClientIP ⟨none, some "1.1.1.1", some "2.2.2.2"⟩ = "1.1.1.1" ∧
      RateLimit.getClientIp ⟨none, some "1.1.1.1", some "2.2.2.2"⟩ =
        Js.firstForwarded "2.2.2.2" ∧
      SearchRoute.getClientIP ⟨none, none, none⟩ = "unknown" ∧
      RateLimit.getClientIp ⟨none, none, none⟩ = "local-dev") :=
  ⟨by decide, by decide,
   c6_ip_priority_amended ⟨none, some "1.1.1.1", some "2.2.2.2"⟩ "1.1.1.1"
     "2.2.2.2" (by decide) rfl (by decide) rfl (by decide)⟩

/-! ## Claim C10: the shared 429 helper always reports the chat limit -/

/-- C10: every 429 built by `rateLimitResponse` carries
`X-RateLimit-Limit: 20` — the chat route's configured `maxRequests` —
regardless of which route class's limit was exceeded, even though the
search class is configured at 60 per minute. -/
theorem c10_rate_limit_header (now resetAt : Nat) :
    (RateLimit.rateLimitResponse now resetAt).headers.lookup
        "X-RateLimit-Limit" =
      some (toString RateLimit.RATE_LIMITS.chat.maxRequests) ∧
    toString RateLimit.RATE_LIMITS.chat.maxRequests = "20" ∧
    RateLimit.RATE_LIMITS.search.maxRequests = 60 ∧
    (RateLimit.rateLimitResponse now resetAt).status = 429 := by
  refine ⟨?_, by decide, by decide, rfl⟩
  simp [RateLimit.rateLimitResponse, List.lookup]

/-! ## Claim C5: search fallback invariant -/

/-- C5: for every query with a non-empty normalized form: when the primary
full-text strategy errs, the `ilike` fallback is attempted exactly once
(and the primary exactly once); when both err, the caller gets the thrown
error and the route turns it into an explicit 500 whose result list is
empty; when the primary succeeds, the fallback is never attempted and the
fallback flag is false. -/
theorem c5_search_fallback (q : String) (lim : Js.JSNum)
    (f : Supabase.RestResult) (ep ef : Supabase.ApiError)
    (d : Option (List Supabase.Question)) (lp : Option String)
    (hn : Supabase.normalizeSearchQuery q ≠ "") :
    (Supabase.searchQuestionsWithFallback q lim (.err ep) f).fallbackCalls = 1 ∧
    (Supabase.searchQuestionsWithFallback q lim (.err ep) f).primaryCalls = 1 ∧
    Supabase.searchQuestionsWithFallback q lim (.err ep) (.err ef) =
      ⟨.error ef, 1, 1⟩ ∧
    Supabase.searchQuestionsWithFallback q lim (.ok d) f =
      ⟨.ok (d.getD [], false), 1, 0⟩ ∧
    (¬(Js.jsTrimStr q = "" ∨ q.length < 2) →
      SearchApi.searchGET (some q) lp (.err ep) (.err ef) =
        ⟨500, ⟨[], none, none, some "Search failed"⟩, 1, 1⟩) := by
  have herr : Supabase.searchQuestionsWithFallback q lim (.err ep) (.err ef) =
      ⟨.error ef, 1, 1⟩ := by
    simp only [Supabase.searchQuestionsWithFallback]
    rw [if_neg hn]
  refine ⟨?_, ?_, herr, ?_, ?_⟩
  · simp only [Supabase.searchQuestionsWithFallback]
    rw [if_neg hn]
    cases f <;> rfl
  · simp only [Supabase.searchQuestionsWithFallback]
    rw [if_neg hn]
    cases f <;> rfl
  · simp only [Supabase.searchQuestionsWithFallback]
    rw [if_neg hn]
  · intro hq
    simp only [SearchApi.searchGET, Option.getD_some]
    rw [if_neg hq]
    have hlim : SearchApi.searchLimit lp = SearchApi.searchLimit lp := rfl
    rw [show Supabase.searchQuestionsWithFallback q (SearchApi.searchLimit lp)
        (.err ep) (.err ef) = ⟨.error ef, 1, 1⟩ from by
      simp only [Supabase.searchQuestionsWithFallback]
      rw [if_neg hn]]

/-- Witness for C5 at the query `"proxy help"`. -/
theorem c5_search_fallback_witness :
    Supabase.normalizeSearchQuery "proxy help" ≠ "" ∧
    ((Supabase.searchQuestionsWithFallback "proxy help" (some 5)
          (.err ⟨"boom", none⟩) (.ok (some []))).fallbackCalls = 1 ∧
      (Supabase.searchQuestionsWithFallback "proxy help" (some 5)
          (.err ⟨"boom", none⟩) (.ok (some []))).primaryCalls = 1 ∧
      Supabase.searchQuestionsWithFallback "proxy help" (some 5)
          (.err ⟨"boom", none⟩) (.err ⟨"boom2", none⟩) =
        ⟨.error ⟨"boom2", none⟩, 1, 1⟩ ∧
      Supabase.searchQuestionsWithFallback "proxy help" (some 5)
          (.ok (some [])) (.ok (some [])) = ⟨.ok ([], false), 1, 0⟩ ∧
      (¬(Js.jsTrimStr "proxy help" = "" ∨ ("proxy help" : String).length < 2) →
        SearchApi.searchGET (some "proxy help") none (.err ⟨"boom", none⟩)
            (.err ⟨"boom2", none⟩) =
          ⟨500, ⟨[], none, none, some "Search failed"⟩, 1, 1⟩)) :=
  ⟨by decide,
   c5_search_fallback "proxy help" (some 5) (.ok (some [])) ⟨"boom", none⟩
     ⟨"boom2", none⟩ (some []) none (by decide)⟩

/-! ## Claim C9: the applied search limit -/

/-- C9 counterexample: with `limit=abc` (and likewise `limit=0`) the route
computes `Math.min(parseInt("abc"), 100) = NaN`, which is falsy in
`supabaseRest`, so no limit parameter at all is applied to the upstream
query — contradicting the claim that the applied limit is always an
integer of at most 100. -/
theorem c9_limit_cap_counterexample :
    SearchApi.appliedLimit (some "abc") = none ∧
    SearchApi.appliedLimit (some "0") = none := by
  decide

/-- C9 (amended): when `parseInt(limit || "20")` yields a nonzero integer
`n`, the applied limit is `min n 100`, an integer of at most 100 (negative
values pass through un-clamped); when it yields `NaN` or `0`, no limit is
applied to the upstream query at all; a missing parameter applies the
default 20. -/
theorem c9_limit_cap_amended (lp : Option String) (n : Int) :
    (Js.jsParseInt (Js.jsGetOr lp "20") = some n → n ≠ 0 →
      SearchApi.appliedLimit lp = some (min n 100) ∧ min n 100 ≤ 100) ∧
    (Js.jsParseInt (Js.jsGetOr lp "20") = some 0 ∨
        Js.jsParseInt (Js.jsGetOr lp "20") = none →
      SearchApi.appliedLimit lp = none) ∧
    (lp = none → SearchApi.appliedLimit lp = some 20) := by
  refine ⟨?_, ?_, ?_⟩
  · intro hparse hn
    have hmin : min n 100 ≠ 0 := by
      rcases le_total n 100 with h | h
      · rw [min_eq_left h]; exact hn
      · rw [min_eq_right h]; omega
    constructor
    · simp only [SearchApi.appliedLimit, SearchApi.searchLimit,
        Supabase.supabaseRestLimitParam, Js.jsMin, hparse, Js.jsNumTruthy]
      rw [if_pos (by simpa using hmin)]
    · exact min_le_right n 100
  · intro hparse
    rcases hparse with h | h <;>
      simp only [SearchApi.appliedLimit, SearchApi.searchLimit,
        Supabase.supabaseRestLimitParam, Js.jsMin, h, Js.jsNumTruthy] <;>
      simp
  · intro h
    subst h
    decide

/-- Witness for C9 (amended) at `limit=500` (parsed 500, applied 100). -/
theorem c9_limit_cap_amended_witness :
    Js.jsParseInt (Js.jsGetOr (some "500") "20") = some 500 ∧
    (500 : Int) ≠ 0 ∧
    (SearchApi.appliedLimit (some "500") = some (min 500 100) ∧
      min (500 : Int) 100 ≤ 100) :=
  ⟨by decide, by decide,
   (c9_limit_cap_amended (some "500") 500).1 (by decide) (by decide)⟩

/-! ## Claim C8: search cache TTL -/

namespace SearchRoute

theorem any_key_of_mapGet {m : Cache} {k : String} {e : CacheEntry}
    (h : mapGet m k = some e) : m.any (fun p => p.1 == k) = true := by
  induction m with
  | nil => simp [mapGet] at h
  | cons a t ih =>
    simp only [mapGet] at h
    by_cases hk : (a.1 == k) = true
    · simp [List.any_cons, hk]
    · rw [if_neg (by simp [hk])] at h
      simp only [List.any_cons, hk, Bool.false_or]
      exact ih h

theorem mapGet_mapSet_self {m : Cache} {k : String} (v : CacheEntry)
    (h : m.any (fun p => p.1 == k) = true) :
    mapGet (mapSet m k v) k = some v := by
  simp only [mapSet, h, if_true, reduceIte]
  induction m with
  | nil => simp at h
  | cons a t ih =>
    by_cases hk : (a.1 == k) = true
    · simp [mapGet, hk]
    · simp only [List.any_cons, hk, Bool.false_or] at h
      simp only [List.map_cons, hk, Bool.false_eq_true, reduceIte, mapGet]
      exact ih h

theorem length_mapSet_of_any {m : Cache} {k : String} (v : CacheEntry)
    (h : m.any (fun p => p.1 == k) = true) :
    (mapSet m k v).length = m.length := by
  simp [mapSet, h]

theorem pruneCache_of_le {cache : Cache} (h : cache.length ≤ CACHE_MAX_SIZE) :
    pruneCache cache = cache := by
  simp [pruneCache, h]

end SearchRoute

/-- C8: with an entry stored under the request's cache key, the production
search route serves the cached body without calling either upstream
strategy whenever the entry is strictly younger than `CACHE_TTL_MS`
(60s), only bumping its hit counter; an entry 60s old or older is treated
as a miss — the upstream search runs and the cache entry is replaced by
the fresh result (under the invariant that the cache is within its size
cap, which every reachable cache state satisfies). -/
theorem c8_cache_ttl (cache : SearchRoute.Cache) (now : Nat)
    (key upBody : String) (e : SearchRoute.CacheEntry)
    (hget : SearchRoute.mapGet cache key = some e) :
    ((now : Int) - (e.timestamp : Int) < (SearchRoute.CACHE_TTL_MS : Int) →
      SearchRoute.serveSearchCached cache now key upBody =
        ⟨e.body, true, false,
          SearchRoute.mapSet cache key ⟨e.timestamp, e.body, e.hits + 1⟩⟩) ∧
    ((SearchRoute.CACHE_TTL_MS : Int) ≤ (now : Int) - (e.timestamp : Int) →
      cache.length ≤ SearchRoute.CACHE_MAX_SIZE →
      (SearchRoute.serveSearchCached cache now key upBody).upstreamCalled = true ∧
      (SearchRoute.serveSearchCached cache now key upBody).cacheHit = false ∧
      (SearchRoute.serveSearchCached cache now key upBody).body = upBody ∧
      SearchRoute.mapGet
          (SearchRoute.serveSearchCached cache now key upBody).cache key =
        some ⟨now, upBody, 0⟩) := by
  constructor
  · intro hyoung
    simp only [SearchRoute.serveSearchCached, hget]
    rw [if_pos hyoung]
  · intro hold hsize
    have hany := SearchRoute.any_key_of_mapGet hget
    simp only [SearchRoute.serveSearchCached, hget]
    rw [if_neg (by omega)]
    refine ⟨rfl, rfl, rfl, ?_⟩
    simp only
    rw [SearchRoute.pruneCache_of_le (by
      rw [SearchRoute.length_mapSet_of_any _ hany]
      exact hsize)]
    exact SearchRoute.mapGet_mapSet_self _ hany

/-- Witness for C8 with a single-entry cache: a 50s-old entry is a HIT, a
70s-old entry is a MISS that replaces the entry. -/
theorem c8_cache_ttl_witness :
    ((50100 : Int) - (100 : Int) < (SearchRoute.CACHE_TTL_MS : Int) →
      SearchRoute.serveSearchCached [("k", ⟨100, "old", 0⟩)] 50100 "k" "new" =
        ⟨"old", true, false,
          SearchRoute.mapSet [("k", ⟨100, "old", 0⟩)] "k" ⟨100, "old", 1⟩⟩) ∧
    ((SearchRoute.CACHE_TTL_MS : Int) ≤ (70100 : Int) - (100 : Int) →
      ([("k", (⟨100, "old", 0⟩ : SearchRoute.CacheEntry))] : SearchRoute.Cache).length ≤
        SearchRoute.CACHE_MAX_SIZE →
      (SearchRoute.serveSearchCached [("k", ⟨100, "old", 0⟩)] 70100 "k" "new").upstreamCalled =
          true ∧
      (SearchRoute.serveSearchCached [("k", ⟨100, "old", 0⟩)] 70100 "k" "new").cacheHit =
          false ∧
      (SearchRoute.serveSearchCached [("k", ⟨100, "old", 0⟩)] 70100 "k" "new").body =
          "new" ∧
      SearchRoute.mapGet
          (SearchRoute.serveSearchCached [("k", ⟨100, "old", 0⟩)] 70100 "k" "new").cache
          "k" = some ⟨70100, "new", 0⟩) :=
  ⟨(c8_cache_ttl [("k", ⟨100, "old", 0⟩)] 50100 "k" "new" ⟨100, "old", 0⟩
      (by decide)).1,
   (c8_cache_ttl [("k", ⟨100, "old", 0⟩)] 70100 "k" "new" ⟨100, "old", 0⟩
      (by decide)).2⟩

/-! ## Claim C3: chat graceful degradation -/

/-- C3: for a chat request that passes rate limiting and validation, with a
provider key configured, if every upstream attempt yields a 5xx (or 429)
status, the route still answers HTTP 200 with a non-empty human-readable
`response` field — never a 5xx status and never an empty body. -/
theorem c3_chat_graceful_degradation (msg sid : Option String)
    (okey vkey : String) (upstream : Nat → ChatApi.UpstreamResp)
    (rl : RateLimit.RateLimitResult) (v : String)
    (hrl : rl.allowed = true)
    (hmsg : Security.sanitizeMessage (msg.getD "") = .valid v)
    (hsid : (Js.jsTruthyOpt sid && !Security.isValidSessionId (sid.getD "")) = false)
    (hkey : okey ≠ "" ∨ vkey ≠ "")
    (hup : ∀ i, (upstream i).status = 429 ∨
        (500 ≤ (upstream i).status ∧ (upstream i).status ≤ 599)) :
    (ChatApi.chatPOST rl msg sid okey vkey upstream).status = 200 ∧
    (ChatApi.chatPOST rl msg sid okey vkey upstream).response =
      some ChatApi.gracefulMessage ∧
    ChatApi.gracefulMessage ≠ "" := by
  have hok : ChatApi.respOk (upstream 0) = false := by
    unfold ChatApi.respOk
    rcases hup 0 with h | ⟨h1, h2⟩
    · rw [decide_eq_false (by omega : ¬ (upstream 0).status ≤ 299),
        Bool.and_false]
    · rw [decide_eq_false (by omega : ¬ (upstream 0).status ≤ 299),
        Bool.and_false]
  have hkeyb : (!(okey != "") && !((!(okey != "")) && vkey != "")) = false := by
    rcases hkey with h | h
    · simp [h]
    · by_cases ho : okey = "" <;> simp [ho, h]
  simp only [ChatApi.chatPOST, hrl, Bool.not_true, Bool.false_eq_true,
    reduceIte, hmsg, hsid, hkeyb, hok]
  exact ⟨rfl, rfl, by decide⟩

/-- Witness for C3 at a concrete request whose provider always answers 500. -/
theorem c3_chat_graceful_degradation_witness :
    (⟨true, 19, 0⟩ : RateLimit.RateLimitResult).allowed = true ∧
    Security.sanitizeMessage ((some "hello there").getD "") = .valid "hello there" ∧
    (Js.jsTruthyOpt none &&
      !Security.isValidSessionId ((none : Option String).getD "")) = false ∧
    (("k1" : String) ≠ "" ∨ ("" : String) ≠ "") ∧
    ((ChatApi.chatPOST ⟨true, 19, 0⟩ (some "hello there") none "k1" ""
        (fun _ => ⟨500, none⟩)).status = 200 ∧
      (ChatApi.chatPOST ⟨true, 19, 0⟩ (some "hello there") none "k1" ""
          (fun _ => ⟨500, none⟩)).response = some ChatApi.gracefulMessage ∧
      ChatApi.gracefulMessage ≠ "") :=
  ⟨rfl, by decide, by decide, Or.inl (by decide),
   c3_chat_graceful_degradation (some "hello there") none "k1" ""
     (fun _ => ⟨500, none⟩) ⟨true, 19, 0⟩ "hello there" rfl (by decide)
     (by decide) (Or.inl (by decide))
     (fun _ => Or.inr (show (500 : Nat) ≤ 500 ∧ (500 : Nat) ≤ 599 from
       ⟨by decide, by decide⟩))⟩

/-! ## Claim C4: retry with backoff and provider failover -/

/-- C4 counterexample: the chat route performs no retries and no provider
failover. With both provider keys configured and every upstream attempt
returning 500, exactly one upstream call is made (the claim's
retry-with-backoff state machine would make three calls to the first
provider before moving to the next), and the route immediately returns the
graceful-degradation 200. -/
theorem c4_no_retry_counterexample :
    (ChatApi.chatPOST ⟨true, 19, 0⟩ (some "need proxy help") none "k1" "k2"
        (fun _ => ⟨500, none⟩)).upstreamCalls = 1 ∧
    (ChatApi.chatPOST ⟨true, 19, 0⟩ (some "need proxy help") none "k1" "k2"
        (fun _ => ⟨500, none⟩)).provider = some "openrouter" ∧
    (ChatApi.chatPOST ⟨true, 19, 0⟩ (some "need proxy help") none "k1" "k2"
        (fun _ => ⟨500, none⟩)).status = 200 ∧
    (ChatApi.chatPOST ⟨true, 19, 0⟩ (some "need proxy help") none "k1" "k2"
        (fun _ => ⟨500, none⟩)).response = some ChatApi.gracefulMessage := by
  decide

/-- C4 (amended): on any non-2xx upstream status the chat route makes
exactly one upstream fetch — no retry, no backoff, no second provider —
and immediately ends with the graceful-degradation 200. The single
selected provider is OpenRouter when its key is configured, otherwise
VectorEngine. -/
theorem c4_single_attempt_amended (msg sid : Option String)
    (okey vkey : String) (upstream : Nat → ChatApi.UpstreamResp)
    (rl : RateLimit.RateLimitResult) (v : String)
    (hrl : rl.allowed = true)
    (hmsg : Security.sanitizeMessage (msg.getD "") = .valid v)
    (hsid : (Js.jsTruthyOpt sid && !Security.isValidSessionId (sid.getD "")) = false)
    (hup : ChatApi.respOk (upstream 0) = false) :
    (okey ≠ "" →
      ChatApi.chatPOST rl msg sid okey vkey upstream =
        ⟨200, some ChatApi.gracefulMessage, none, some "openrouter", 1⟩) ∧
    (okey = "" → vkey ≠ "" →
      ChatApi.chatPOST rl msg sid okey vkey upstream =
        ⟨200, some ChatApi.gracefulMessage, none, some "vectorengine", 1⟩) := by
  constructor
  · intro ho
    have hkeyb : (!(okey != "") && !((!(okey != "")) && vkey != "")) = false := by
      simp [ho]
    simp only [ChatApi.chatPOST, hrl, Bool.not_true, Bool.false_eq_true,
      reduceIte, hmsg, hsid, hkeyb, hup]
    simp [ho]
  · intro ho hv
    have hkeyb : (!(okey != "") && !((!(okey != "")) && vkey != "")) = false := by
      simp [ho, hv]
    simp only [ChatApi.chatPOST, hrl, Bool.not_true, Bool.false_eq_true,
      reduceIte, hmsg, hsid, hkeyb, hup]
    simp [ho]

/-- Witness for C4 (amended) with only the VectorEngine key configured and
an upstream that answers 503. -/
theorem c4_single_attempt_amended_witness :
    (⟨true, 19, 0⟩ : RateLimit.RateLimitResult).allowed = true ∧
    Security.sanitizeMessage ((some "need a proxy").getD "") =
      .valid "need a proxy" ∧
    ChatApi.respOk ⟨503, none⟩ = false ∧
    (("" : String) = "" → ("k2" : String) ≠ "" →
      ChatApi.chatPOST ⟨true, 19, 0⟩ (some "need a proxy") none "" "k2"
          (fun _ => ⟨503, none⟩) =
        ⟨200, some ChatApi.gracefulMessage, none, some "vectorengine", 1⟩) :=
  ⟨rfl, by decide, by decide,
   (c4_single_attempt_amended (some "need a proxy") none "" "k2"
       (fun _ => ⟨503, none⟩) ⟨true, 19, 0⟩ "need a proxy" rfl (by decide)
       (by decide) (by decide)).2⟩
